import Mathlib

/-! Clicker backend: user record service.

A shallow embedding of `src/index.js`: the `User` schema, the six route
handlers, and the document store calls they make (`findOne`,
`findOneAndUpdate` with `$set` / `$addToSet`, `upsert: true`, `new: true`),
followed by the properties of the handlers.

Modelling conventions.
* The collection is a list of documents in insertion order; a lookup takes the
  first document whose `userID` equals the key, an upsert appends.  The store
  internal `_id` and `__v` fields are not part of the model.
* Stored numbers are integers (the data model makes `userID`, `clicks` and
  friend ids integers, sent as JSON numbers). The coercion of a query text by
  `Number(...)` rounds to binary64, as the object-document mapper does when it
  casts a filter.
* Every call to the store either answers or raises an error with a message;
  the outcome of each call is an explicit argument of the handler making it.
* Request bodies carry typed fields (JSON numbers and strings). A query
  parameter is raw: absent, or the text of a parameter given once. A repeated
  or bracketed parameter, which the query parser turns into an array or an
  object, is outside the model, and no statement below speaks about one.
-/

namespace Clicker

/-! ## ECMAScript `Number(...)` on a query parameter -/

/-- Result of a numeric coercion, as far as the handlers and the store tell
binary64 values apart: `NaN`, an integer-valued number, or some other number
(fractional or infinite), which equals no stored integer. -/
inductive JSNumber where
  | nan
  | int (i : Int)
  | other
  deriving DecidableEq

/-- The global `isNaN` applied to a number. -/
def isNaN : JSNumber → Bool
  | .nan => true
  | _ => false

/-- A query-string parameter as the handler reads it from `req.query`, for a
parameter given at most once and without brackets: `undefined` when absent,
text otherwise. -/
inductive QueryValue where
  | missing
  | text (s : String)
  deriving DecidableEq

/-- StrWhiteSpaceChar of ECMAScript: white space and line terminators. -/
def isStrWhiteSpaceChar (c : Char) : Bool :=
  let n := c.toNat
  n == 0x09 || n == 0x0A || n == 0x0B || n == 0x0C || n == 0x0D || n == 0x20 ||
  n == 0xA0 || n == 0x1680 || (0x2000 ≤ n && n ≤ 0x200A) || n == 0x2028 ||
  n == 0x2029 || n == 0x202F || n == 0x205F || n == 0x3000 || n == 0xFEFF

/-- Strip leading and trailing StrWhiteSpaceChar. -/
def trimStrWhiteSpace (cs : List Char) : List Char :=
  ((cs.dropWhile isStrWhiteSpaceChar).reverse.dropWhile isStrWhiteSpaceChar).reverse

/-- Value of one digit in the given radix (2, 8, 10 or 16), if it is one. -/
def digitValue (radix : Nat) (c : Char) : Option Nat :=
  let n := c.toNat
  let v : Option Nat :=
    if 48 ≤ n ∧ n ≤ 57 then some (n - 48)
    else if 97 ≤ n ∧ n ≤ 102 then some (n - 87)
    else if 65 ≤ n ∧ n ≤ 70 then some (n - 55)
    else none
  match v with
  | some d => if d < radix then some d else none
  | none => none

/-- Read a run consisting only of digits of the radix, most significant first,
continuing from the accumulator; `none` when a character is not a digit. -/
def readDigits (radix : Nat) : List Char → Nat → Option Nat
  | [], acc => some acc
  | c :: cs, acc =>
    match digitValue radix c with
    | some d => readDigits radix cs (acc * radix + d)
    | none => none

/-- A non-empty run of digits of the radix. -/
def readDigits1 (radix : Nat) (cs : List Char) : Option Nat :=
  if cs.isEmpty then none else readDigits radix cs 0

/-- Whether the character is a decimal digit. -/
def isDecimalDigit (c : Char) : Bool := (digitValue 10 c).isSome

/-- A list of characters all of which are decimal digits. -/
def AllDigits (cs : List Char) : Prop := ∀ c ∈ cs, isDecimalDigit c = true

/-- ExponentPart of a decimal literal: after `e` or `E`, an optional sign and
at least one digit. The empty rest is exponent zero. -/
def readExponent : List Char → Option Int
  | [] => some 0
  | c :: cs =>
    if c == 'e' || c == 'E' then
      match cs with
      | '+' :: ds => (readDigits1 10 ds).map Int.ofNat
      | '-' :: ds => (readDigits1 10 ds).map (fun n => - Int.ofNat n)
      | ds => (readDigits1 10 ds).map Int.ofNat
    else none

/-- Number of binary digits of `n` (zero for zero), by halving at most `fuel`
times. -/
def bitLength : Nat → Nat → Nat
  | 0, _ => 0
  | fuel + 1, n => if n = 0 then 0 else bitLength fuel (n / 2) + 1

/-- The integer `e` with `2 ^ e ≤ a / b < 2 ^ (e + 1)`, for positive `a`, `b`. -/
def floorLog2Ratio (a b : Nat) : Int :=
  let e0 : Int := (bitLength a a : Int) - (bitLength b b : Int)
  let reached : Bool :=
    if 0 ≤ e0 then decide (b * 2 ^ e0.toNat ≤ a) else decide (b ≤ a * 2 ^ (-e0).toNat)
  if reached then e0 else e0 - 1

/-- The integer nearest to `a / b`, a tie going to the even one. -/
def roundHalfEven (a b : Nat) : Nat :=
  let q := a / b
  let r := a % b
  if 2 * r < b then q
  else if b < 2 * r then q + 1
  else if q % 2 = 0 then q else q + 1

/-- The binary64 value nearest to `± a / b` (ties to even, 53 significant bits,
least exponent -1022, overflow to infinity), classified: an integer-valued
result is `int`, a fractional or infinite one `other`. -/
def toBinary64 (neg : Bool) (a b : Nat) : JSNumber :=
  let sign : Int := if neg then -1 else 1
  if a = 0 then .int 0
  else
    let e := max (floorLog2Ratio a b) (-1022)
    let k := e - 52
    if 0 ≤ k then
      let n := roundHalfEven a (b * 2 ^ k.toNat)
      if 2 ^ 1024 ≤ n * 2 ^ k.toNat then .other
      else .int (sign * (n * 2 ^ k.toNat : Nat))
    else
      let n := roundHalfEven (a * 2 ^ (-k).toNat) b
      if n % 2 ^ (-k).toNat = 0 then .int (sign * (n / 2 ^ (-k).toNat : Nat)) else .other

/-- The Number value of `± m * 10 ^ shift`. -/
def scaled (neg : Bool) (m : Nat) (shift : Int) : JSNumber :=
  if 0 ≤ shift then toBinary64 neg (m * 10 ^ shift.toNat) 1
  else toBinary64 neg m (10 ^ (-shift).toNat)

/-- StrUnsignedDecimalLiteral: `Infinity`, digits with an optional fraction and
exponent, or a fraction starting with the dot. -/
def readUnsignedDecimal (neg : Bool) (cs : List Char) : JSNumber :=
  if cs = "Infinity".toList then .other
  else
    let ip := cs.takeWhile isDecimalDigit
    let rest := cs.dropWhile isDecimalDigit
    match rest with
    | '.' :: rest1 =>
      let fp := rest1.takeWhile isDecimalDigit
      let rest2 := rest1.dropWhile isDecimalDigit
      if ip.isEmpty && fp.isEmpty then .nan
      else
        match readDigits 10 (ip ++ fp) 0, readExponent rest2 with
        | some m, some e => scaled neg m (e - fp.length)
        | _, _ => .nan
    | _ =>
      if ip.isEmpty then .nan
      else
        match readDigits 10 ip 0, readExponent rest with
        | some m, some e => scaled neg m e
        | _, _ => .nan

/-- StringToNumber on the characters of a string: the empty or blank string is
zero; `0x`, `0o`, `0b` literals carry no sign; anything outside the grammar
is `NaN`; the value of a literal is rounded to binary64. -/
def stringToNumber (s : List Char) : JSNumber :=
  match trimStrWhiteSpace s with
  | [] => .int 0
  | '0' :: r :: ds =>
    if r == 'x' || r == 'X' then
      match readDigits1 16 ds with | some n => toBinary64 false n 1 | none => .nan
    else if r == 'o' || r == 'O' then
      match readDigits1 8 ds with | some n => toBinary64 false n 1 | none => .nan
    else if r == 'b' || r == 'B' then
      match readDigits1 2 ds with | some n => toBinary64 false n 1 | none => .nan
    else readUnsignedDecimal false ('0' :: r :: ds)
  | '+' :: cs => readUnsignedDecimal false cs
  | '-' :: cs => readUnsignedDecimal true cs
  | cs => readUnsignedDecimal false cs

/-- The coercion `Number(userID)` of a query parameter: `undefined` gives
`NaN`, text goes through StringToNumber. -/
def Number : QueryValue → JSNumber
  | .missing => .nan
  | .text s => stringToNumber s.toList

/-! ## The `User` schema and the collection -/

/-- A `User` document as `userSchema` declares it: `userID` (required, unique),
`clicks` (default 0), `upgrades` (strings), `friends` (friend ids). -/
structure User where
  userID : Int
  clicks : Int
  upgrades : List String
  friends : List Int
  deriving DecidableEq

/-- The `users` collection: its documents in insertion order. -/
abbrev Store := List User

/-- What the store does with one call: it answers, or the call is rejected
with an error carrying a message and the collection stays as it was. -/
inductive StoreCall where
  | answers
  | raises (message : String)
  deriving DecidableEq

/-- The update documents the handlers send: `{ $set: { clicks } }`,
`{ $addToSet: { upgrades: upgradeName } }`, `{ $addToSet: { friends: id } }`. -/
inductive Update where
  | setClicks (clicks : Int)
  | addToSetUpgrades (upgradeName : String)
  | addToSetFriends (friendID : Int)
  deriving DecidableEq

/-- The `$addToSet` operator on an array field: append the value unless the
array already holds it. -/
def addToSet {α : Type} [DecidableEq α] (xs : List α) (x : α) : List α :=
  if x ∈ xs then xs else xs ++ [x]

/-- Apply an update document to a document. -/
def Update.apply : Update → User → User
  | .setClicks clicks, d => { d with clicks := clicks }
  | .addToSetUpgrades upgradeName, d => { d with upgrades := addToSet d.upgrades upgradeName }
  | .addToSetFriends friendID, d => { d with friends := addToSet d.friends friendID }

/-- The document an upsert starts from when no document matches: the `userID`
of the filter and the schema defaults for the other paths. -/
def newUser (userID : Int) : User :=
  { userID := userID, clicks := 0, upgrades := [], friends := [] }

/-- First document of the collection with the given `userID`. -/
def lookup (db : Store) (userID : Int) : Option User :=
  db.find? (fun d => d.userID == userID)

/-- Replace the first document with the given `userID` by its image. -/
def updateFirst (userID : Int) (f : User → User) : Store → Store
  | [] => []
  | d :: ds => if d.userID = userID then f d :: ds else d :: updateFirst userID f ds

/-- A value given for the `userID` path of a filter: a raw query parameter
(`findOne({ userID })` in GET /api/clicks) or a number (`findOne({ userID: id })`). -/
inductive FilterValue where
  | query (q : QueryValue)
  | number (n : JSNumber)
  deriving DecidableEq

/-- Message of the error raised when a filter value does not cast to the
`Number` type of the path, in the wording of the object-document mapper. -/
def castErrorMessage (shown : String) : String :=
  "Cast to Number failed for value \"" ++ shown ++ "\" at path \"userID\" for model \"User\""

/-- The schema cast of a filter value for the `Number` path `userID`. The
result is the integer to compare stored ids with, or `none` for a value equal
to no stored id (`undefined` and the empty string become a null filter; a
fractional or infinite number is kept). Text that coerces to `NaN` and `NaN`
itself are rejected. -/
def castNumber : FilterValue → Except String (Option Int)
  | .query .missing => .ok none
  | .query (.text s) =>
    if s = "" then .ok none
    else
      match stringToNumber s.toList with
      | .nan => .error (castErrorMessage s)
      | .int i => .ok (some i)
      | .other => .ok none
  | .number .nan => .error (castErrorMessage "NaN")
  | .number (.int i) => .ok (some i)
  | .number .other => .ok none

/-- The call `User.findOne({ userID: v })`. The filter is cast first, and a
value that does not cast raises the cast error without a call to the store;
otherwise the store is called and answers the first matching document or
`null` (here `none`), or rejects the call. -/
def User.findOne (c : StoreCall) (db : Store) (v : FilterValue) : Except String (Option User) :=
  match castNumber v with
  | .error message => .error message
  | .ok key =>
    match c with
    | .raises message => .error message
    | .answers =>
      match key with
      | none => .ok none
      | some userID => .ok (lookup db userID)

/-- The single-document upsert the store performs atomically: update the first
document with the given `userID`, or insert the updated `newUser` when there
is none. Gives the collection afterwards and the document after the update. -/
def upsertOne (db : Store) (userID : Int) (update : Update) : Store × User :=
  match lookup db userID with
  | some d => (updateFirst userID update.apply db, update.apply d)
  | none => (db ++ [update.apply (newUser userID)], update.apply (newUser userID))

/-- The call `User.findOneAndUpdate({ userID }, update, { new: true, upsert: true })`:
an error when the call is rejected, otherwise the upsert, answering the
document after the update. -/
def User.findOneAndUpdate (c : StoreCall) (db : Store) (userID : Int) (update : Update) :
    Except String (Store × User) :=
  match c with
  | .raises message => .error message
  | .answers => .ok (upsertOne db userID update)

/-! ## Responses -/

/-- JSON bodies the handlers send. -/
inductive Body where
  | clicks (clicks : Int)
  | upgrades (upgrades : List String)
  | friends (friends : List Int)
  | user (user : User)
  | message (message : String)
  deriving DecidableEq

/-- An HTTP response: status code and JSON body. -/
structure Response where
  status : Nat
  body : Body
  deriving DecidableEq

/-- The response `res.json(body)`: status 200. -/
def Response.json (body : Body) : Response := { status := 200, body := body }

/-- The response `res.status(code).json({ message })`. -/
def Response.fail (code : Nat) (message : String) : Response :=
  { status := code, body := .message message }

/-! ## The six route handlers

Each handler takes the outcome of every store call it may make, the collection
and the request fields, and gives the collection afterwards with the response. -/

/-- Handler of GET /api/clicks. -/
def getClicks (c : StoreCall) (db : Store) (userID : QueryValue) : Store × Response :=
  match User.findOne c db (.query userID) with
  | .ok (some user) => (db, Response.json (.clicks user.clicks))
  | .ok none => (db, Response.fail 404 "User not found")
  | .error message => (db, Response.fail 500 message)

/-- Handler of POST /api/clicks. -/
def setClicks (c : StoreCall) (db : Store) (userID clicks : Int) : Store × Response :=
  match User.findOneAndUpdate c db userID (.setClicks clicks) with
  | .ok (db1, user) => (db1, Response.json (.user user))
  | .error message => (db, Response.fail 500 message)

/-- Handler of POST /api/upgrades. -/
def addUpgrade (c : StoreCall) (db : Store) (userID : Int) (upgradeName : String) :
    Store × Response :=
  match User.findOneAndUpdate c db userID (.addToSetUpgrades upgradeName) with
  | .ok (db1, user) => (db1, Response.json (.user user))
  | .error message => (db, Response.fail 500 message)

/-- Handler of GET /api/upgrades. -/
def listUpgrades (c : StoreCall) (db : Store) (userID : QueryValue) : Store × Response :=
  let id := Number userID
  if isNaN id then (db, Response.fail 400 "Invalid userID format")
  else
    match User.findOne c db (.number id) with
    | .ok (some user) => (db, Response.json (.upgrades user.upgrades))
    | .ok none => (db, Response.fail 404 "User not found")
    | .error message => (db, Response.fail 500 message)

/-- Handler of GET /api/friends. -/
def listFriends (c : StoreCall) (db : Store) (userID : QueryValue) : Store × Response :=
  let id := Number userID
  if isNaN id then (db, Response.fail 400 "Invalid userID format")
  else
    match User.findOne c db (.number id) with
    | .ok (some user) => (db, Response.json (.friends user.friends))
    | .ok none => (db, Response.fail 404 "User not found")
    | .error message => (db, Response.fail 500 message)

/-- Handler of POST /api/friends/add: two updates in sequence inside one
`try`; the response `res.json(user)` comes after the second. -/
def addFriend (c1 c2 : StoreCall) (db : Store) (userID friendID : Int) : Store × Response :=
  match User.findOneAndUpdate c1 db userID (.addToSetFriends friendID) with
  | .error message => (db, Response.fail 500 message)
  | .ok (db1, user) =>
    match User.findOneAndUpdate c2 db1 friendID (.addToSetFriends userID) with
    | .error message => (db1, Response.fail 500 message)
    | .ok (db2, _) => (db2, Response.json (.user user))

/-! ## Histories of requests -/

/-- One request to the service, with the outcome of each store call it makes. -/
inductive Op where
  | getClicks (c : StoreCall) (userID : QueryValue)
  | setClicks (c : StoreCall) (userID clicks : Int)
  | addUpgrade (c : StoreCall) (userID : Int) (upgradeName : String)
  | listUpgrades (c : StoreCall) (userID : QueryValue)
  | listFriends (c : StoreCall) (userID : QueryValue)
  | addFriend (c1 c2 : StoreCall) (userID friendID : Int)

/-- Serve one request. -/
def Op.run : Op → Store → Store × Response
  | .getClicks c userID, db => Clicker.getClicks c db userID
  | .setClicks c userID clicks, db => Clicker.setClicks c db userID clicks
  | .addUpgrade c userID upgradeName, db => Clicker.addUpgrade c db userID upgradeName
  | .listUpgrades c userID, db => Clicker.listUpgrades c db userID
  | .listFriends c userID, db => Clicker.listFriends c db userID
  | .addFriend c1 c2 userID friendID, db => Clicker.addFriend c1 c2 db userID friendID

/-- The collection after serving the requests in order. -/
def runAll : List Op → Store → Store
  | [], db => db
  | op :: ops, db => runAll ops (op.run db).1

/-- A collection is reachable when some history of requests produces it from
the empty collection. -/
def Reachable (db : Store) : Prop := ∃ ops : List Op, runAll ops [] = db

/-- The ids a request writes: the `userID` of an answered SetClicks or
AddUpgrade; for AddFriend the `userID` once the first update is answered and
the `friendID` once the second is too. Reads and rejected updates write none. -/
def Op.written : Op → List Int
  | .setClicks .answers userID _ => [userID]
  | .addUpgrade .answers userID _ => [userID]
  | .addFriend .answers .answers userID friendID => [userID, friendID]
  | .addFriend .answers (.raises _) userID _ => [userID]
  | _ => []

/-- The ids written in the course of a history. -/
def writtenIds (ops : List Op) : List Int := ops.flatMap Op.written

/-- No value occurs twice in the `upgrades` or in the `friends` of any document. -/
def NoDuplicates (db : Store) : Prop :=
  ∀ d ∈ db, d.upgrades.Nodup ∧ d.friends.Nodup

/-- At most one document per `userID` value. -/
def UniqueKeys (db : Store) : Prop := (db.map User.userID).Nodup


/-! ## Lemmas on the collection -/

theorem Update.apply_userID (update : Update) (d : User) :
    (update.apply d).userID = d.userID := by
  cases update <;> rfl

theorem lookup_nil (v : Int) : lookup [] v = none := rfl

theorem lookup_cons (d : User) (ds : Store) (v : Int) :
    lookup (d :: ds) v = if d.userID = v then some d else lookup ds v := by
  by_cases h : d.userID = v <;> simp [lookup, List.find?_cons, h]

theorem lookup_some_mem {db : Store} {v : Int} {d : User} (h : lookup db v = some d) :
    d ∈ db ∧ d.userID = v := by
  induction db with
  | nil => simp [lookup_nil] at h
  | cons e es ih =>
    rw [lookup_cons] at h
    by_cases he : e.userID = v
    · simp [he] at h
      subst h
      exact ⟨List.mem_cons_self _ _, he⟩
    · simp [he] at h
      exact ⟨List.mem_cons_of_mem _ (ih h).1, (ih h).2⟩

theorem lookup_eq_none_iff (db : Store) (v : Int) :
    lookup db v = none ↔ v ∉ db.map User.userID := by
  induction db with
  | nil => simp [lookup_nil]
  | cons e es ih =>
    rw [lookup_cons]
    by_cases he : e.userID = v
    · simp [he]
    · simp only [he, if_false, List.map_cons, List.mem_cons, not_or]
      constructor
      · intro h
        exact ⟨fun hv => he hv.symm, ih.mp h⟩
      · intro h
        exact ih.mpr h.2

theorem lookup_append_single (db : Store) (d : User) (v : Int) :
    lookup (db ++ [d]) v =
      match lookup db v with
      | some x => some x
      | none => if d.userID = v then some d else none := by
  induction db with
  | nil => simp [lookup_nil, lookup_cons]
  | cons e es ih =>
    simp only [List.cons_append, lookup_cons]
    by_cases he : e.userID = v
    · simp [he]
    · simp [he, ih]

theorem lookup_updateFirst_self (u : Int) (f : User → User)
    (hf : ∀ d, (f d).userID = d.userID) (db : Store) :
    lookup (updateFirst u f db) u = (lookup db u).map f := by
  induction db with
  | nil => rfl
  | cons e es ih =>
    by_cases he : e.userID = u
    · simp [updateFirst, lookup_cons, he, hf]
    · simp [updateFirst, lookup_cons, he, ih]

theorem lookup_updateFirst_other (u v : Int) (f : User → User)
    (hf : ∀ d, (f d).userID = d.userID) (hv : v ≠ u) (db : Store) :
    lookup (updateFirst u f db) v = lookup db v := by
  induction db with
  | nil => rfl
  | cons e es ih =>
    by_cases he : e.userID = u
    · have h1 : ¬ e.userID = v := fun h => hv (h.symm.trans he)
      simp [updateFirst, lookup_cons, he, hf, hv.symm]
    · simp [updateFirst, lookup_cons, he, ih]

theorem map_userID_updateFirst (u : Int) (f : User → User)
    (hf : ∀ d, (f d).userID = d.userID) (db : Store) :
    (updateFirst u f db).map User.userID = db.map User.userID := by
  induction db with
  | nil => rfl
  | cons e es ih =>
    by_cases he : e.userID = u
    · simp [updateFirst, he, hf]
    · simp [updateFirst, he, ih]

theorem filter_updateFirst (u : Int) (f : User → User)
    (hf : ∀ d, (f d).userID = d.userID) (p : Int → Bool) (hp : p u = false) (db : Store) :
    (updateFirst u f db).filter (fun d => p d.userID) = db.filter (fun d => p d.userID) := by
  induction db with
  | nil => rfl
  | cons e es ih =>
    by_cases he : e.userID = u
    · simp [updateFirst, he, hf, hp, List.filter_cons]
    · simp [updateFirst, he, ih, List.filter_cons]

theorem mem_updateFirst {u : Int} {f : User → User} {db : Store} {d : User}
    (h : d ∈ updateFirst u f db) : d ∈ db ∨ ∃ e ∈ db, d = f e := by
  induction db with
  | nil => simp [updateFirst] at h
  | cons e es ih =>
    by_cases he : e.userID = u
    · simp only [updateFirst, he, if_true, List.mem_cons] at h
      rcases h with h | h
      · exact Or.inr ⟨e, List.mem_cons_self _ _, h⟩
      · exact Or.inl (List.mem_cons_of_mem _ h)
    · simp only [updateFirst, he, if_false, List.mem_cons] at h
      rcases h with h | h
      · exact Or.inl (h ▸ List.mem_cons_self _ _)
      · rcases ih h with h1 | ⟨x, hx, hd⟩
        · exact Or.inl (List.mem_cons_of_mem _ h1)
        · exact Or.inr ⟨x, List.mem_cons_of_mem _ hx, hd⟩

/-! ## Lemmas on the upsert -/

theorem upsertOne_doc (db : Store) (u : Int) (update : Update) :
    (upsertOne db u update).2 = update.apply ((lookup db u).getD (newUser u)) := by
  unfold upsertOne
  cases h : lookup db u <;> simp

theorem lookup_upsertOne_self (db : Store) (u : Int) (update : Update) :
    lookup (upsertOne db u update).1 u = some (upsertOne db u update).2 := by
  unfold upsertOne
  cases h : lookup db u with
  | none =>
    simp [lookup_append_single, h, Update.apply_userID, newUser]
  | some d =>
    simp [lookup_updateFirst_self u _ (Update.apply_userID update), h]

theorem lookup_upsertOne_other (db : Store) (u v : Int) (update : Update) (hv : v ≠ u) :
    lookup (upsertOne db u update).1 v = lookup db v := by
  unfold upsertOne
  cases h : lookup db u with
  | none =>
    simp only [lookup_append_single, Update.apply_userID, newUser]
    cases lookup db v <;> simp [hv.symm]
  | some d =>
    exact lookup_updateFirst_other u v _ (Update.apply_userID update) hv db

theorem keys_upsertOne (db : Store) (u : Int) (update : Update) :
    (upsertOne db u update).1.map User.userID =
      if lookup db u = none then db.map User.userID ++ [u] else db.map User.userID := by
  unfold upsertOne
  cases h : lookup db u with
  | none => simp [Update.apply_userID, newUser]
  | some d => simp [map_userID_updateFirst u _ (Update.apply_userID update)]

theorem filter_upsertOne (db : Store) (u : Int) (update : Update) (p : Int → Bool)
    (hp : p u = false) :
    (upsertOne db u update).1.filter (fun d => p d.userID) = db.filter (fun d => p d.userID) := by
  unfold upsertOne
  cases h : lookup db u with
  | none => simp [List.filter_append, List.filter_cons, Update.apply_userID, newUser, hp]
  | some d => exact filter_updateFirst u _ (Update.apply_userID update) p hp db

theorem mem_upsertOne {db : Store} {u : Int} {update : Update} {d : User}
    (h : d ∈ (upsertOne db u update).1) :
    d ∈ db ∨ d = update.apply (newUser u) ∨ ∃ e ∈ db, d = update.apply e := by
  unfold upsertOne at h
  cases hl : lookup db u with
  | none =>
    simp only [hl, List.mem_append, List.mem_singleton] at h
    rcases h with h | h
    · exact Or.inl h
    · exact Or.inr (Or.inl h)
  | some e =>
    simp only [hl] at h
    rcases mem_updateFirst h with h1 | h1
    · exact Or.inl h1
    · exact Or.inr (Or.inr h1)

theorem addToSet_nodup {α : Type} [DecidableEq α] (xs : List α) (x : α) (h : xs.Nodup) :
    (addToSet xs x).Nodup := by
  unfold addToSet
  by_cases hx : x ∈ xs
  · simp [hx, h]
  · simp only [hx, if_false]
    exact List.Nodup.append h (List.nodup_singleton x) (by simpa using hx)

theorem mem_addToSet {α : Type} [DecidableEq α] (xs : List α) (x : α) :
    x ∈ addToSet xs x := by
  unfold addToSet
  by_cases hx : x ∈ xs <;> simp [hx]

theorem addToSet_idem {α : Type} [DecidableEq α] (xs : List α) (x : α) :
    addToSet (addToSet xs x) x = addToSet xs x := by
  have h := mem_addToSet xs x
  generalize addToSet xs x = ys at h
  unfold addToSet
  simp [h]

theorem Update.apply_nodup (update : Update) (d : User)
    (h : d.upgrades.Nodup ∧ d.friends.Nodup) :
    (update.apply d).upgrades.Nodup ∧ (update.apply d).friends.Nodup := by
  cases update with
  | setClicks n => exact h
  | addToSetUpgrades x => exact ⟨addToSet_nodup _ _ h.1, h.2⟩
  | addToSetFriends f => exact ⟨h.1, addToSet_nodup _ _ h.2⟩

theorem noDuplicates_upsertOne (db : Store) (u : Int) (update : Update)
    (h : NoDuplicates db) : NoDuplicates (upsertOne db u update).1 := by
  intro d hd
  rcases mem_upsertOne hd with h1 | h1 | ⟨e, he, h1⟩
  · exact h d h1
  · subst h1
    exact Update.apply_nodup update _ ⟨List.nodup_nil, List.nodup_nil⟩
  · subst h1
    exact Update.apply_nodup update _ (h e he)

theorem uniqueKeys_upsertOne (db : Store) (u : Int) (update : Update)
    (h : UniqueKeys db) : UniqueKeys (upsertOne db u update).1 := by
  unfold UniqueKeys at *
  rw [keys_upsertOne]
  by_cases hl : lookup db u = none
  · simp only [hl, if_true]
    have hu : u ∉ db.map User.userID := (lookup_eq_none_iff db u).mp hl
    exact List.Nodup.append h (List.nodup_singleton u) (by simpa using hu)
  · simp only [hl, if_false]
    exact h

/-! ## Lemmas on the handlers -/

theorem getClicks_store (c : StoreCall) (db : Store) (q : QueryValue) :
    (getClicks c db q).1 = db := by
  unfold getClicks
  split <;> rfl

theorem listUpgrades_store (c : StoreCall) (db : Store) (q : QueryValue) :
    (listUpgrades c db q).1 = db := by
  unfold listUpgrades
  simp only []
  split
  · rfl
  · split <;> rfl

theorem listFriends_store (c : StoreCall) (db : Store) (q : QueryValue) :
    (listFriends c db q).1 = db := by
  unfold listFriends
  simp only []
  split
  · rfl
  · split <;> rfl

theorem setClicks_answers (db : Store) (u n : Int) :
    setClicks .answers db u n =
      ((upsertOne db u (.setClicks n)).1,
        Response.json (.user (upsertOne db u (.setClicks n)).2)) :=
  rfl

theorem setClicks_raises (m : String) (db : Store) (u n : Int) :
    setClicks (.raises m) db u n = (db, Response.fail 500 m) := rfl

theorem addUpgrade_answers (db : Store) (u : Int) (x : String) :
    addUpgrade .answers db u x =
      ((upsertOne db u (.addToSetUpgrades x)).1,
        Response.json (.user (upsertOne db u (.addToSetUpgrades x)).2)) :=
  rfl

theorem addUpgrade_raises (m : String) (db : Store) (u : Int) (x : String) :
    addUpgrade (.raises m) db u x = (db, Response.fail 500 m) := rfl

theorem addFriend_raises (m : String) (c2 : StoreCall) (db : Store) (u f : Int) :
    addFriend (.raises m) c2 db u f = (db, Response.fail 500 m) := rfl

theorem addFriend_answers_raises (m : String) (db : Store) (u f : Int) :
    addFriend .answers (.raises m) db u f =
      ((upsertOne db u (.addToSetFriends f)).1, Response.fail 500 m) := rfl

theorem addFriend_answers_answers (db : Store) (u f : Int) :
    addFriend .answers .answers db u f =
      ((upsertOne (upsertOne db u (.addToSetFriends f)).1 f (.addToSetFriends u)).1,
        Response.json (.user (upsertOne db u (.addToSetFriends f)).2)) := rfl

/-- Every property of collections that the upsert keeps is kept by every
request, whatever the outcomes of its store calls. -/
theorem Op.run_preserves (P : Store → Prop)
    (hP : ∀ db u update, P db → P (upsertOne db u update).1)
    (op : Op) (db : Store) (h : P db) : P (op.run db).1 := by
  cases op with
  | getClicks c q => simpa [Op.run, getClicks_store] using h
  | listUpgrades c q => simpa [Op.run, listUpgrades_store] using h
  | listFriends c q => simpa [Op.run, listFriends_store] using h
  | setClicks c u n =>
    cases c with
    | answers => exact hP db u _ h
    | raises m => exact h
  | addUpgrade c u x =>
    cases c with
    | answers => exact hP db u _ h
    | raises m => exact h
  | addFriend c1 c2 u f =>
    cases c1 with
    | raises m => exact h
    | answers =>
      cases c2 with
      | raises m => exact hP db u _ h
      | answers => exact hP _ f _ (hP db u _ h)

theorem runAll_preserves (P : Store → Prop)
    (hP : ∀ db u update, P db → P (upsertOne db u update).1)
    (ops : List Op) : ∀ db : Store, P db → P (runAll ops db) := by
  induction ops with
  | nil => intro db h; exact h
  | cons op ops ih => intro db h; exact ih _ (Op.run_preserves P hP op db h)

theorem keys_upsertOne_subset (db : Store) (u : Int) (update : Update) (k : Int)
    (hk : k ∈ (upsertOne db u update).1.map User.userID) :
    k ∈ db.map User.userID ∨ k = u := by
  rw [keys_upsertOne] at hk
  by_cases hl : lookup db u = none
  · simp only [hl, if_true, List.mem_append, List.mem_singleton] at hk
    exact hk
  · simp only [hl, if_false] at hk
    exact Or.inl hk

/-- A request adds no key other than the ids it writes. -/
theorem Op.run_keys_subset (op : Op) (db : Store) (k : Int)
    (hk : k ∈ (op.run db).1.map User.userID) :
    k ∈ db.map User.userID ∨ k ∈ op.written := by
  cases op with
  | getClicks c q => left; simpa [Op.run, getClicks_store] using hk
  | listUpgrades c q => left; simpa [Op.run, listUpgrades_store] using hk
  | listFriends c q => left; simpa [Op.run, listFriends_store] using hk
  | setClicks c u n =>
    cases c with
    | answers =>
      rcases keys_upsertOne_subset db u _ k hk with h | h
      · exact Or.inl h
      · exact Or.inr (by simp [Op.written, h])
    | raises m => exact Or.inl hk
  | addUpgrade c u x =>
    cases c with
    | answers =>
      rcases keys_upsertOne_subset db u _ k hk with h | h
      · exact Or.inl h
      · exact Or.inr (by simp [Op.written, h])
    | raises m => exact Or.inl hk
  | addFriend c1 c2 u f =>
    cases c1 with
    | raises m => exact Or.inl hk
    | answers =>
      cases c2 with
      | raises m =>
        rcases keys_upsertOne_subset db u _ k hk with h | h
        · exact Or.inl h
        · exact Or.inr (by simp [Op.written, h])
      | answers =>
        rcases keys_upsertOne_subset _ f _ k hk with h | h
        · rcases keys_upsertOne_subset db u _ k h with h1 | h1
          · exact Or.inl h1
          · exact Or.inr (by simp [Op.written, h1])
        · exact Or.inr (by simp [Op.written, h])

theorem runAll_keys_subset (ops : List Op) :
    ∀ (db : Store) (k : Int), k ∈ (runAll ops db).map User.userID →
      k ∈ db.map User.userID ∨ k ∈ writtenIds ops := by
  induction ops with
  | nil => intro db k hk; exact Or.inl hk
  | cons op ops ih =>
    intro db k hk
    rcases ih _ k hk with h | h
    · rcases Op.run_keys_subset op db k h with h1 | h1
      · exact Or.inl h1
      · exact Or.inr (by simp [writtenIds, h1])
    · exact Or.inr (by
        simp only [writtenIds, List.flatMap_cons, List.mem_append]
        exact Or.inr h)

theorem updateFirst_eq_self (u : Int) (f : User → User) (db : Store) (d : User)
    (hl : lookup db u = some d) (hd : f d = d) : updateFirst u f db = db := by
  induction db with
  | nil => rfl
  | cons e es ih =>
    rw [lookup_cons] at hl
    by_cases he : e.userID = u
    · simp only [he, if_true, Option.some.injEq] at hl
      subst hl
      simp [updateFirst, he, hd]
    · simp only [he, if_false] at hl
      simp [updateFirst, he, ih hl]

theorem upsertOne_of_lookup_some (db : Store) (u : Int) (update : Update) (d : User)
    (hl : lookup db u = some d) :
    upsertOne db u update = (updateFirst u update.apply db, update.apply d) := by
  unfold upsertOne
  rw [hl]

theorem Update.apply_idem (update : Update) (d : User) :
    update.apply (update.apply d) = update.apply d := by
  cases update with
  | setClicks n => rfl
  | addToSetUpgrades x => simp [Update.apply, addToSet_idem]
  | addToSetFriends f => simp [Update.apply, addToSet_idem]

/-- Repeating an upsert with the same update changes nothing and answers the
same document. -/
theorem upsertOne_idem (db : Store) (u : Int) (update : Update) :
    upsertOne (upsertOne db u update).1 u update = upsertOne db u update := by
  have hl := lookup_upsertOne_self db u update
  have hd : update.apply (upsertOne db u update).2 = (upsertOne db u update).2 := by
    rw [upsertOne_doc, Update.apply_idem]
  rw [upsertOne_of_lookup_some _ u update _ hl, hd, updateFirst_eq_self u _ _ _ hl hd]

theorem getClicks_answers_of_cast (db : Store) (q : QueryValue) (u : Int)
    (hq : castNumber (.query q) = .ok (some u)) :
    getClicks .answers db q =
      (db, match lookup db u with
        | some d => Response.json (.clicks d.clicks)
        | none => Response.fail 404 "User not found") := by
  unfold getClicks User.findOne
  simp only [hq]
  cases lookup db u <;> rfl

theorem listFriends_answers_of_number (db : Store) (q : QueryValue) (u : Int)
    (hq : Number q = .int u) :
    listFriends .answers db q =
      (db, match lookup db u with
        | some d => Response.json (.friends d.friends)
        | none => Response.fail 404 "User not found") := by
  unfold listFriends User.findOne
  simp only [hq, isNaN, castNumber]
  cases lookup db u <;> simp

theorem upsertOne_doc_userID (db : Store) (u : Int) (update : Update) :
    (upsertOne db u update).2.userID = u := by
  rw [upsertOne_doc, Update.apply_userID]
  cases h : lookup db u with
  | none => rfl
  | some d => exact (lookup_some_mem h).2

theorem lookup_upsertOne (db : Store) (u k : Int) (update : Update) :
    lookup (upsertOne db u update).1 k =
      if k = u then some (update.apply ((lookup db u).getD (newUser u))) else lookup db k := by
  by_cases hk : k = u
  · subst hk
    simp [lookup_upsertOne_self, upsertOne_doc]
  · simp [hk, lookup_upsertOne_other db u k update hk]

/-- The keys after an upsert are the keys before followed by at most one new
key, the id written, and only when it had no document. -/
theorem keys_upsertOne_added (db : Store) (u : Int) (update : Update) :
    ∃ added : List Int,
      (upsertOne db u update).1.map User.userID = db.map User.userID ++ added ∧
      added.length ≤ 1 ∧ ∀ k ∈ added, k = u ∧ lookup db k = none := by
  rw [keys_upsertOne]
  by_cases hl : lookup db u = none
  · refine ⟨[u], by simp [hl], by simp, ?_⟩
    intro k hk
    simp only [List.mem_singleton] at hk
    subst hk
    exact ⟨rfl, hl⟩
  · exact ⟨[], by simp [hl], by simp, by simp⟩

/-! ## Decimal text of an id

The decimal text of an integer below `2 ^ 53` in absolute value (what a client
puts in `?userID=`) coerces back to that integer, so every such id is named by
some query parameter. -/

theorem digitValue_digitChar (d : Nat) (h : d < 10) :
    digitValue 10 (Nat.digitChar d) = some d := by
  interval_cases d <;> rfl

theorem digitValue_ten_range {c : Char} {d : Nat} (h : digitValue 10 c = some d) :
    48 ≤ c.toNat ∧ c.toNat ≤ 57 := by
  unfold digitValue at h
  simp only [] at h
  by_cases h1 : 48 ≤ c.toNat ∧ c.toNat ≤ 57
  · exact h1
  · exfalso
    simp only [h1, if_false] at h
    by_cases h2 : 97 ≤ c.toNat ∧ c.toNat ≤ 102
    · simp only [h2, and_self, if_true] at h
      split at h <;> simp at h
      omega
    · simp only [h2, if_false] at h
      by_cases h3 : 65 ≤ c.toNat ∧ c.toNat ≤ 70
      · simp only [h3, and_self, if_true] at h
        split at h <;> simp at h
        omega
      · simp [h3] at h

theorem isDecimalDigit_range {c : Char} (h : isDecimalDigit c = true) :
    48 ≤ c.toNat ∧ c.toNat ≤ 57 := by
  unfold isDecimalDigit at h
  cases hd : digitValue 10 c with
  | none => simp [hd] at h
  | some d => exact digitValue_ten_range hd

theorem not_whiteSpace_of_digit {c : Char} (h : isDecimalDigit c = true) :
    isStrWhiteSpaceChar c = false := by
  have hr := isDecimalDigit_range h
  unfold isStrWhiteSpaceChar
  simp only [Bool.or_eq_false_iff, Bool.and_eq_false_iff, beq_eq_false_iff_ne, ne_eq,
    decide_eq_false_iff_not]
  omega

theorem toDigitsCore_allDigits (fuel : Nat) : ∀ (n : Nat) (ds : List Char),
    AllDigits ds → AllDigits (Nat.toDigitsCore 10 fuel n ds) := by
  induction fuel with
  | zero => intro n ds h; exact h
  | succ fuel ih =>
    intro n ds h
    have hd : isDecimalDigit (Nat.digitChar (n % 10)) = true := by
      unfold isDecimalDigit
      rw [digitValue_digitChar _ (Nat.mod_lt _ (by decide))]
      rfl
    have hcons : AllDigits (Nat.digitChar (n % 10) :: ds) := by
      intro c hc
      rcases List.mem_cons.mp hc with hc | hc
      · exact hc ▸ hd
      · exact h c hc
    simp only [Nat.toDigitsCore]
    split
    · exact hcons
    · exact ih _ _ hcons

theorem toDigitsCore_ne_nil (fuel : Nat) : ∀ (n : Nat) (ds : List Char),
    Nat.toDigitsCore 10 (fuel + 1) n ds ≠ [] := by
  induction fuel with
  | zero =>
    intro n ds
    simp only [Nat.toDigitsCore]
    split <;> simp
  | succ fuel ih =>
    intro n ds
    rw [Nat.toDigitsCore]
    split
    · simp
    · exact ih _ _

theorem readDigits_toDigitsCore (fuel : Nat) : ∀ (n : Nat) (ds : List Char), n < fuel →
    readDigits 10 (Nat.toDigitsCore 10 fuel n ds) 0 = readDigits 10 ds n := by
  induction fuel with
  | zero => intro n ds h; omega
  | succ fuel ih =>
    intro n ds h
    simp only [Nat.toDigitsCore]
    split
    · rename_i h0
      simp only [readDigits, digitValue_digitChar _ (Nat.mod_lt n (by decide : 10 > 0))]
      congr 1
      omega
    · rename_i h0
      rw [ih (n / 10) _ (by omega)]
      simp only [readDigits, digitValue_digitChar _ (Nat.mod_lt n (by decide : 10 > 0))]
      congr 1
      omega

theorem readDigits_toDigits (n : Nat) : readDigits 10 (Nat.toDigits 10 n) 0 = some n := by
  unfold Nat.toDigits
  rw [readDigits_toDigitsCore (n + 1) n [] (by omega)]
  rfl

theorem toDigits_allDigits (n : Nat) : AllDigits (Nat.toDigits 10 n) :=
  toDigitsCore_allDigits _ _ _ (by intro c hc; simp at hc)

theorem toDigits_ne_nil (n : Nat) : Nat.toDigits 10 n ≠ [] :=
  toDigitsCore_ne_nil _ _ _

theorem dropWhile_eq_self {p : Char → Bool} (l : List Char) (h : ∀ c ∈ l, p c = false) :
    l.dropWhile p = l := by
  cases l with
  | nil => rfl
  | cons a as => simp [List.dropWhile, h a (List.mem_cons_self _ _)]

theorem trimStrWhiteSpace_eq_self (l : List Char)
    (h : ∀ c ∈ l, isStrWhiteSpaceChar c = false) : trimStrWhiteSpace l = l := by
  unfold trimStrWhiteSpace
  rw [dropWhile_eq_self l h, dropWhile_eq_self l.reverse (by simpa using h), List.reverse_reverse]

theorem bitLength_le (fuel : Nat) : ∀ (n k : Nat), n < 2 ^ k → bitLength fuel n ≤ k := by
  induction fuel with
  | zero => intro n k _; exact Nat.zero_le _
  | succ fuel ih =>
    intro n k h
    unfold bitLength
    by_cases hn : n = 0
    · simp [hn]
    · simp only [hn, if_false]
      cases k with
      | zero => simp at h; exact absurd h hn
      | succ k =>
        have h2 : n / 2 < 2 ^ k := by
          rw [Nat.div_lt_iff_lt_mul (by decide)]
          rw [Nat.pow_succ] at h
          exact h
        have := ih (n / 2) k h2
        omega

theorem floorLog2Ratio_one_le (a : Nat) (h : a < 2 ^ 53) : floorLog2Ratio a 1 ≤ 52 := by
  have hb := bitLength_le a a 53 h
  have h1 : bitLength 1 1 = 1 := rfl
  unfold floorLog2Ratio
  simp only [h1]
  split <;> omega

theorem roundHalfEven_one (x : Nat) : roundHalfEven x 1 = x := by
  simp [roundHalfEven, Nat.mod_one]

/-- An integer below `2 ^ 53` in absolute value is its own binary64 value. -/
theorem toBinary64_int (neg : Bool) (a : Nat) (h : a < 2 ^ 53) :
    toBinary64 neg a 1 = .int ((if neg then -1 else 1) * (a : Int)) := by
  unfold toBinary64
  by_cases ha : a = 0
  · simp [ha]
  · simp only [ha, if_false]
    have he : max (floorLog2Ratio a 1) (-1022) ≤ 52 :=
      max_le (floorLog2Ratio_one_le a h) (by decide)
    generalize max (floorLog2Ratio a 1) (-1022) = e at he
    by_cases hk : 0 ≤ e - 52
    · have h0 : e - 52 = 0 := by omega
      have hlt : ¬ (2 ^ 1024 ≤ a) := by
        intro hge
        have h53 : (2 : Nat) ^ 53 ≤ 2 ^ 1024 := Nat.pow_le_pow_right (by decide) (by decide)
        exact absurd (Nat.lt_of_lt_of_le h (Nat.le_trans h53 hge)) (Nat.lt_irrefl _)
      simp [h0, roundHalfEven_one, hlt]
    · simp only [hk, if_false, roundHalfEven_one, Nat.mul_mod_left, if_true]
      rw [Nat.mul_div_cancel _ (Nat.pow_pos (by decide))]

theorem scaled_zero_shift (neg : Bool) (n : Nat) (h : n < 2 ^ 53) :
    scaled neg n 0 = .int ((if neg then -1 else 1) * (n : Int)) := by
  unfold scaled
  simp [toBinary64_int neg n h]

theorem readUnsignedDecimal_digits (neg : Bool) (l : List Char) (n : Nat)
    (hne : l ≠ []) (hall : AllDigits l) (hr : readDigits 10 l 0 = some n) (hn : n < 2 ^ 53) :
    readUnsignedDecimal neg l = .int ((if neg then -1 else 1) * (n : Int)) := by
  have htake : l.takeWhile isDecimalDigit = l := List.takeWhile_eq_self_iff.mpr hall
  have hdrop : l.dropWhile isDecimalDigit = [] := List.dropWhile_eq_nil_iff.mpr hall
  have hinf : l ≠ "Infinity".toList := by
    intro h
    have := hall 'I' (by rw [h]; decide)
    revert this
    decide
  unfold readUnsignedDecimal
  simp only [hinf, if_false, htake, hdrop, hr, readExponent]
  cases l with
  | nil => exact absurd rfl hne
  | cons a as => simp [scaled_zero_shift neg n hn]

theorem stringToNumber_digits (l : List Char) (n : Nat)
    (hne : l ≠ []) (hall : AllDigits l) (hr : readDigits 10 l 0 = some n) (hn : n < 2 ^ 53) :
    stringToNumber l = .int n := by
  have hws : ∀ c ∈ l, isStrWhiteSpaceChar c = false :=
    fun c hc => not_whiteSpace_of_digit (hall c hc)
  have hres := readUnsignedDecimal_digits false l n hne hall hr hn
  simp only [Bool.false_eq_true, if_false, one_mul] at hres
  unfold stringToNumber
  rw [trimStrWhiteSpace_eq_self l hws]
  split
  · exact absurd rfl hne
  · rename_i r ds
    have hrd := isDecimalDigit_range (hall r (by simp))
    have h1 : (r == 'x') = false := by
      rw [beq_eq_false_iff_ne]; rintro rfl; revert hrd; decide
    have h2 : (r == 'X') = false := by
      rw [beq_eq_false_iff_ne]; rintro rfl; revert hrd; decide
    have h3 : (r == 'o') = false := by
      rw [beq_eq_false_iff_ne]; rintro rfl; revert hrd; decide
    have h4 : (r == 'O') = false := by
      rw [beq_eq_false_iff_ne]; rintro rfl; revert hrd; decide
    have h5 : (r == 'b') = false := by
      rw [beq_eq_false_iff_ne]; rintro rfl; revert hrd; decide
    have h6 : (r == 'B') = false := by
      rw [beq_eq_false_iff_ne]; rintro rfl; revert hrd; decide
    simp only [h1, h2, h3, h4, h5, h6, Bool.or_self, Bool.false_eq_true, if_false]
    exact hres
  · rename_i cs
    exact absurd (isDecimalDigit_range (hall '+' (by simp))) (by decide)
  · rename_i cs
    exact absurd (isDecimalDigit_range (hall '-' (by simp))) (by decide)
  · exact hres

theorem stringToNumber_minus_digits (l : List Char) (n : Nat)
    (hne : l ≠ []) (hall : AllDigits l) (hr : readDigits 10 l 0 = some n) (hn : n < 2 ^ 53) :
    stringToNumber ('-' :: l) = .int (-(n : Int)) := by
  have hws : ∀ c ∈ '-' :: l, isStrWhiteSpaceChar c = false := by
    intro c hc
    rcases List.mem_cons.mp hc with hc | hc
    · subst hc; decide
    · exact not_whiteSpace_of_digit (hall c hc)
  have hres := readUnsignedDecimal_digits true l n hne hall hr hn
  simp only [if_true, neg_mul, one_mul] at hres
  unfold stringToNumber
  rw [trimStrWhiteSpace_eq_self _ hws]
  exact hres

/-- The decimal text of an integer below `2 ^ 53` in absolute value (every
such integer is a binary64 value) coerces to that integer. -/
theorem Number_decimal (i : Int) (hi : i.natAbs < 2 ^ 53) :
    Number (.text (toString i)) = .int i := by
  unfold Number
  cases i with
  | ofNat m =>
    show stringToNumber (Nat.toDigits 10 m).asString.toList = _
    exact stringToNumber_digits _ m (toDigits_ne_nil m) (toDigits_allDigits m)
      (readDigits_toDigits m) hi
  | negSucc m =>
    show stringToNumber ("-" ++ (Nat.toDigits 10 (m + 1)).asString).toList = _
    have h := stringToNumber_minus_digits _ (m + 1) (toDigits_ne_nil (m + 1))
      (toDigits_allDigits (m + 1)) (readDigits_toDigits (m + 1)) hi
    simpa [Int.negSucc_eq] using h

/-- The store casts the decimal text of an integer below `2 ^ 53` in absolute
value to that integer. -/
theorem castNumber_decimal (i : Int) (hi : i.natAbs < 2 ^ 53) :
    castNumber (.query (.text (toString i))) = .ok (some i) := by
  have h : stringToNumber (toString i).toList = .int i := Number_decimal i hi
  have hne : toString i ≠ "" := by
    intro he
    have hl : (toString i).toList = [] := by rw [he]; rfl
    cases i with
    | ofNat m => exact toDigits_ne_nil m hl
    | negSucc m =>
      have hl2 : ("-" ++ (Nat.toDigits 10 (m + 1)).asString).toList = [] := hl
      simp at hl2
  simp only [castNumber, hne, if_false, h]

/-- The coercion rounds to binary64: an odd integer above `2 ^ 53` goes to its
even neighbour, a fraction too fine for 53 bits to the integer next to it, a
text beyond the largest binary64 value to infinity (`other`), and one below
half the least positive value to zero. -/
theorem Number_rounds :
    Number (.text "9007199254740993") = .int 9007199254740992 ∧
    Number (.text "5.0000000000000000001") = .int 5 ∧
    Number (.text "1e400") = .other ∧
    Number (.text "1e-400") = .int 0 ∧
    castNumber (.query (.text "9007199254740993")) = .ok (some 9007199254740992) := by
  refine ⟨by decide!, by decide!, by decide!, by decide!, ?_⟩
  have h : stringToNumber "9007199254740993".toList = .int 9007199254740992 := by decide!
  simp only [castNumber]
  rw [if_neg (by decide), h]

/-- The concrete scenario of the specification, every store call answered:
`POST /api/clicks {5, 10}`, `GET /api/clicks?userID=5`,
`POST /api/upgrades {5, "laser"}`, `GET /api/upgrades?userID=5`,
`POST /api/friends/add {5, 9}`, `GET /api/friends?userID=9`, and
`GET /api/clicks?userID=999` for a user never written. -/
theorem spec_scenario :
    (setClicks .answers [] 5 10).2 =
      { status := 200,
        body := .user { userID := 5, clicks := 10, upgrades := [], friends := [] } } ∧
    (getClicks .answers (setClicks .answers [] 5 10).1 (.text "5")).2 =
      { status := 200, body := .clicks 10 } ∧
    (listUpgrades .answers
      (addUpgrade .answers (setClicks .answers [] 5 10).1 5 "laser").1 (.text "5")).2 =
      { status := 200, body := .upgrades ["laser"] } ∧
    (listFriends .answers
      (addFriend .answers .answers
        (addUpgrade .answers (setClicks .answers [] 5 10).1 5 "laser").1 5 9).1 (.text "9")).2 =
      { status := 200, body := .friends [5] } ∧
    (getClicks .answers
      (addFriend .answers .answers
        (addUpgrade .answers (setClicks .answers [] 5 10).1 5 "laser").1 5 9).1
      (.text "999")).2 =
      { status := 404, body := .message "User not found" } := by
  decide

/-! ## The contract of the service -/

/-- C1. When the store answers, SetClicks(userID, n) responds 200 with the
document, whose clicks are n, and a following GetClicks for the same userID
responds 200 with `{clicks: n}`, whatever the collection held before. The
GET query parameter is any text that the store casts to userID; the decimal
text of userID is one for every id below `2 ^ 53` in absolute value
(`castNumber_decimal`). -/
theorem setClicks_then_getClicks (db : Store) (userID n : Int) (q : QueryValue)
    (hq : castNumber (.query q) = .ok (some userID)) :
    (∃ doc : User, (setClicks .answers db userID n).2 = { status := 200, body := .user doc } ∧
      doc.userID = userID ∧ doc.clicks = n) ∧
    getClicks .answers (setClicks .answers db userID n).1 q =
      ((setClicks .answers db userID n).1, { status := 200, body := .clicks n }) := by
  refine ⟨⟨(upsertOne db userID (.setClicks n)).2, rfl, ?_, ?_⟩, ?_⟩
  · rw [upsertOne_doc, Update.apply_userID]
    cases h : lookup db userID with
    | none => rfl
    | some d => exact (lookup_some_mem h).2
  · rw [upsertOne_doc]; rfl
  · rw [getClicks_answers_of_cast _ q userID hq, setClicks_answers]
    simp only [lookup_upsertOne_self, upsertOne_doc]
    rfl

/-- Witness of C1: user 5 absent, then `POST {userID: 5, clicks: 10}` and
`GET ?userID=5`. -/
theorem setClicks_then_getClicks_witness :
    getClicks .answers (setClicks .answers [] 5 10).1 (.text "5") =
      ((setClicks .answers [] 5 10).1, { status := 200, body := .clicks 10 }) :=
  (setClicks_then_getClicks [] 5 10 (.text "5") rfl).2

/-- C2. When both updates of AddFriend(userID, friendID) are answered, a
following ListFriends(userID) responds 200 with a list containing friendID and
ListFriends(friendID) responds 200 with a list containing userID. The query
parameters are any values whose `Number` coercion is the id; the decimal text
of the id is one for every id below `2 ^ 53` in absolute value
(`Number_decimal`). -/
theorem addFriend_then_listFriends (db : Store) (userID friendID : Int) (qu qf : QueryValue)
    (hu : Number qu = .int userID) (hf : Number qf = .int friendID) :
    (∃ friends : List Int,
      listFriends .answers (addFriend .answers .answers db userID friendID).1 qu =
        ((addFriend .answers .answers db userID friendID).1,
          { status := 200, body := .friends friends }) ∧ friendID ∈ friends) ∧
    (∃ friends : List Int,
      listFriends .answers (addFriend .answers .answers db userID friendID).1 qf =
        ((addFriend .answers .answers db userID friendID).1,
          { status := 200, body := .friends friends }) ∧ userID ∈ friends) := by
  have h2 := lookup_upsertOne_self (upsertOne db userID (.addToSetFriends friendID)).1 friendID
    (.addToSetFriends userID)
  have h1 := lookup_upsertOne_self db userID (.addToSetFriends friendID)
  have m1 : friendID ∈ (upsertOne db userID (.addToSetFriends friendID)).2.friends := by
    rw [upsertOne_doc]; exact mem_addToSet _ _
  have m2 : userID ∈ (upsertOne (upsertOne db userID (.addToSetFriends friendID)).1 friendID
      (.addToSetFriends userID)).2.friends := by
    rw [upsertOne_doc]; exact mem_addToSet _ _
  constructor
  · rw [listFriends_answers_of_number _ qu userID hu, addFriend_answers_answers]
    by_cases he : userID = friendID
    · subst he
      simp only [h2]
      exact ⟨_, rfl, m2⟩
    · rw [lookup_upsertOne_other _ friendID userID _ he, h1]
      exact ⟨_, rfl, m1⟩
  · rw [listFriends_answers_of_number _ qf friendID hf, addFriend_answers_answers]
    simp only [h2]
    exact ⟨_, rfl, m2⟩

/-- Witness of C2: on the empty collection, `POST {userID: 5, friendID: 9}`
then `GET ?userID=5` and `GET ?userID=9`. -/
theorem addFriend_then_listFriends_witness :
    (∃ friends : List Int,
      listFriends .answers (addFriend .answers .answers [] 5 9).1 (.text "5") =
        ((addFriend .answers .answers [] 5 9).1,
          { status := 200, body := .friends friends }) ∧ 9 ∈ friends) ∧
    (∃ friends : List Int,
      listFriends .answers (addFriend .answers .answers [] 5 9).1 (.text "9") =
        ((addFriend .answers .answers [] 5 9).1,
          { status := 200, body := .friends friends }) ∧ 5 ∈ friends) :=
  addFriend_then_listFriends [] 5 9 (.text "5") (.text "9") (by decide) (by decide)

/-- C3. AddUpgrade is idempotent: with the same outcome of the store call,
applying AddUpgrade(userID, upgradeName) to the collection it left gives the
same collection and the same response as applying it once. In particular,
when the user has no upgrades (or no document), the second answered call
responds with the document whose upgrades are exactly `[upgradeName]`, and
that is the stored document. -/
theorem addUpgrade_idempotent (c : StoreCall) (db : Store) (userID : Int) (upgradeName : String) :
    addUpgrade c (addUpgrade c db userID upgradeName).1 userID upgradeName =
      addUpgrade c db userID upgradeName ∧
    (((lookup db userID).getD (newUser userID)).upgrades = [] →
      ∃ doc : User,
        addUpgrade .answers (addUpgrade .answers db userID upgradeName).1 userID upgradeName =
          ((addUpgrade .answers db userID upgradeName).1, { status := 200, body := .user doc }) ∧
        doc.upgrades = [upgradeName] ∧
        lookup (addUpgrade .answers db userID upgradeName).1 userID = some doc) := by
  constructor
  · cases c with
    | raises m => rfl
    | answers =>
      simp only [addUpgrade_answers, upsertOne_idem]
  · intro h0
    refine ⟨(upsertOne db userID (.addToSetUpgrades upgradeName)).2, ?_, ?_, ?_⟩
    · simp only [addUpgrade_answers, upsertOne_idem]
      rfl
    · rw [upsertOne_doc]
      simp [Update.apply, addToSet, h0]
    · simp only [addUpgrade_answers, lookup_upsertOne_self]

/-- Witness of C3: user 5 exists with no upgrades; `"x"` is added twice. -/
theorem addUpgrade_idempotent_witness :
    ∃ doc : User,
      addUpgrade .answers (addUpgrade .answers [newUser 5] 5 "x").1 5 "x" =
        ((addUpgrade .answers [newUser 5] 5 "x").1, { status := 200, body := .user doc }) ∧
      doc.upgrades = ["x"] ∧
      lookup (addUpgrade .answers [newUser 5] 5 "x").1 5 = some doc :=
  (addUpgrade_idempotent .answers [newUser 5] 5 "x").2 (by decide)

/-- C4, as the spec states it, fails: on the empty collection AddFriend(1, 2)
whose first update is answered and whose second update is rejected responds
500 with the error message, not with the document of the first update. -/
theorem addFriend_second_rejected_counterexample :
    User.findOneAndUpdate .answers [] 1 (.addToSetFriends 2) =
      .ok ([{ userID := 1, clicks := 0, upgrades := [], friends := [2] }],
        { userID := 1, clicks := 0, upgrades := [], friends := [2] }) ∧
    (addFriend .answers (.raises "store unavailable") [] 1 2).2 =
      { status := 500, body := .message "store unavailable" } ∧
    (addFriend .answers (.raises "store unavailable") [] 1 2).2 ≠
      { status := 200,
        body := .user { userID := 1, clicks := 0, upgrades := [], friends := [2] } } :=
  ⟨rfl, rfl, by decide⟩

/-- C4, amended. When the first update of AddFriend(userID, friendID) is
answered, its document is the userID side with friendID among its friends.
If the second update is answered too, the response is 200 with that first
document, whatever the second update wrote; if the second update is rejected,
the response is 500 with the message of its error. -/
theorem addFriend_response (db : Store) (userID friendID : Int) (c2 : StoreCall) :
    ∃ (db1 : Store) (doc : User),
      User.findOneAndUpdate .answers db userID (.addToSetFriends friendID) = .ok (db1, doc) ∧
      doc.userID = userID ∧ friendID ∈ doc.friends ∧
      (addFriend .answers c2 db userID friendID).2 =
        match c2 with
        | .answers => { status := 200, body := .user doc }
        | .raises message => { status := 500, body := .message message } := by
  refine ⟨(upsertOne db userID (.addToSetFriends friendID)).1,
    (upsertOne db userID (.addToSetFriends friendID)).2, rfl, upsertOne_doc_userID _ _ _, ?_, ?_⟩
  · rw [upsertOne_doc]; exact mem_addToSet _ _
  · cases c2 <;> rfl

/-- C5. When the `Number` coercion of the query parameter is `NaN`,
ListUpgrades and ListFriends respond 400 with "Invalid userID format" and
leave the collection alone, for every collection and every outcome the store
would give (no store call is made); when the coercion is a number, neither
responds 400. The coercions of `"abc"` and of an absent parameter are `NaN`. -/
theorem list_invalid_userID (c : StoreCall) (db : Store) (q : QueryValue) :
    (isNaN (Number q) = true →
      listUpgrades c db q =
        (db, { status := 400, body := .message "Invalid userID format" }) ∧
      listFriends c db q =
        (db, { status := 400, body := .message "Invalid userID format" })) ∧
    (isNaN (Number q) = false →
      (listUpgrades c db q).2.status ≠ 400 ∧ (listFriends c db q).2.status ≠ 400) ∧
    isNaN (Number (.text "abc")) = true ∧ isNaN (Number .missing) = true := by
  refine ⟨?_, ?_, by decide, by decide⟩
  · intro h
    simp [listUpgrades, listFriends, h, Response.fail]
  · intro h
    constructor
    · unfold listUpgrades
      simp only [h, Bool.false_eq_true, if_false]
      split <;> simp [Response.json, Response.fail]
    · unfold listFriends
      simp only [h, Bool.false_eq_true, if_false]
      split <;> simp [Response.json, Response.fail]

/-- Witness of C5: `?userID=abc` is refused with 400 even though the store
would reject the call and holds a user, and `?userID=5` is not answered 400. -/
theorem list_invalid_userID_witness :
    (listUpgrades (.raises "down") [newUser 5] (.text "abc") =
        ([newUser 5], { status := 400, body := .message "Invalid userID format" }) ∧
      listFriends (.raises "down") [newUser 5] (.text "abc") =
        ([newUser 5], { status := 400, body := .message "Invalid userID format" })) ∧
    ((listUpgrades .answers [] (.text "5")).2.status ≠ 400 ∧
      (listFriends .answers [] (.text "5")).2.status ≠ 400) :=
  ⟨(list_invalid_userID (.raises "down") [newUser 5] (.text "abc")).1 (by decide),
    (list_invalid_userID .answers [] (.text "5")).2.1 (by decide)⟩

/-- C6, as stated, fails. After `POST /api/clicks {5, 10}` only user 5 is
written. `GET /api/clicks?userID=abc`, a userID never written, is answered 500
(the filter does not cast to a number), not 404; and
`GET /api/clicks?userID=999`, also never written, is answered 500 with the
message of the store when the store rejects the lookup. -/
theorem getClicks_never_written_counterexample :
    writtenIds [.setClicks .answers 5 10] = [5] ∧
    (getClicks .answers (runAll [.setClicks .answers 5 10] []) (.text "abc")).2.status = 500 ∧
    (getClicks .answers (runAll [.setClicks .answers 5 10] []) (.text "abc")).2 ≠
      { status := 404, body := .message "User not found" } ∧
    getClicks (.raises "store unavailable") (runAll [.setClicks .answers 5 10] [])
        (.text "999") =
      (runAll [.setClicks .answers 5 10] [],
        { status := 500, body := .message "store unavailable" }) := by
  decide

/-- C6, amended. In the collection produced from the empty one by any history
of requests, take a userID query value that the store casts to an integer id
(numeric text such as `"999"`) which no SetClicks, AddUpgrade or AddFriend of
the history has written, as userID or friendID. That id has no document;
GetClicks responds 404 with `{message: "User not found"}` when the store
answers the lookup and 500 with the message of the store when it rejects the
lookup. For every query value and every outcome GetClicks leaves the
collection as it was, so it creates no record; and a query value that does
not cast to a number is answered 500 with the message of the cast error. -/
theorem getClicks_never_written (ops : List Op) (userID : Int) (q : QueryValue)
    (hq : castNumber (.query q) = .ok (some userID)) (hw : userID ∉ writtenIds ops) :
    lookup (runAll ops []) userID = none ∧
    getClicks .answers (runAll ops []) q =
      (runAll ops [], { status := 404, body := .message "User not found" }) ∧
    (∀ message : String, getClicks (.raises message) (runAll ops []) q =
      (runAll ops [], { status := 500, body := .message message })) ∧
    (∀ (c : StoreCall) (q' : QueryValue), (getClicks c (runAll ops []) q').1 = runAll ops []) ∧
    (∀ (c : StoreCall) (q' : QueryValue) (message : String),
      castNumber (.query q') = .error message →
      getClicks c (runAll ops []) q' =
        (runAll ops [], { status := 500, body := .message message })) := by
  have hl : lookup (runAll ops []) userID = none := by
    rw [lookup_eq_none_iff]
    intro hk
    rcases runAll_keys_subset ops [] userID hk with h | h
    · simp at h
    · exact hw h
  refine ⟨hl, ?_, ?_, fun c q' => getClicks_store c _ q', ?_⟩
  · rw [getClicks_answers_of_cast _ q userID hq, hl]
    rfl
  · intro message
    simp only [getClicks, User.findOne, hq]
    rfl
  · intro c q' message hm
    simp only [getClicks, User.findOne, hm]
    rfl

/-- Witness of C6: after `POST /api/clicks {5, 10}`, `POST /api/friends/add
{5, 9}` and a rejected `POST /api/clicks {999, 1}`, `GET /api/clicks?userID=999`. -/
theorem getClicks_never_written_witness :
    getClicks .answers
        (runAll [.setClicks .answers 5 10, .addFriend .answers .answers 5 9,
          .setClicks (.raises "down") 999 1] []) (.text "999") =
      (runAll [.setClicks .answers 5 10, .addFriend .answers .answers 5 9,
          .setClicks (.raises "down") 999 1] [],
        { status := 404, body := .message "User not found" }) :=
  (getClicks_never_written [.setClicks .answers 5 10, .addFriend .answers .answers 5 9,
    .setClicks (.raises "down") 999 1] 999 (.text "999") rfl (by decide)).2.1

/-- C7. No-duplicates invariant: in every collection reachable from the empty
one by a history of the six requests, with any outcomes of the store calls,
no document holds an upgrade twice or a friend twice; and every single
request keeps that property of whatever collection it is served on. -/
theorem noDuplicates_invariant (op : Op) (db : Store) :
    (Reachable db → NoDuplicates db) ∧ (NoDuplicates db → NoDuplicates (op.run db).1) := by
  constructor
  · rintro ⟨ops, rfl⟩
    apply runAll_preserves NoDuplicates noDuplicates_upsertOne ops []
    intro d hd
    simp at hd
  · exact Op.run_preserves NoDuplicates noDuplicates_upsertOne op db

/-- Witness of C7: the same upgrade and the same friendship requested twice. -/
theorem noDuplicates_invariant_witness :
    NoDuplicates (runAll [.addUpgrade .answers 5 "x", .addUpgrade .answers 5 "x",
      .addFriend .answers .answers 5 9, .addFriend .answers .answers 9 5] []) ∧
    NoDuplicates (Op.run (.addFriend .answers .answers 5 9)
      [{ userID := 5, clicks := 3, upgrades := ["x"], friends := [9] }]).1 :=
  ⟨(noDuplicates_invariant (.getClicks .answers .missing)
      (runAll [.addUpgrade .answers 5 "x", .addUpgrade .answers 5 "x",
        .addFriend .answers .answers 5 9, .addFriend .answers .answers 9 5] [])).1
      ⟨_, rfl⟩,
    (noDuplicates_invariant (.addFriend .answers .answers 5 9)
      [{ userID := 5, clicks := 3, upgrades := ["x"], friends := [9] }]).2
      (by simp [NoDuplicates])⟩

/-- C8. Unique-key invariant: every collection reachable from the empty one by
a history of the six requests holds at most one document per userID, and
every request keeps that property. A write appends documents only for ids it
names that had no document and otherwise leaves the keys as they were:
SetClicks and AddUpgrade append at most one document, AddFriend at most two. -/
theorem uniqueKeys_invariant (op : Op) (db : Store) (c c1 c2 : StoreCall)
    (userID friendID n : Int) (upgradeName : String) :
    (Reachable db → UniqueKeys db) ∧
    (UniqueKeys db → UniqueKeys (op.run db).1) ∧
    (∃ added : List Int,
      (setClicks c db userID n).1.map User.userID = db.map User.userID ++ added ∧
      added.length ≤ 1 ∧ ∀ k ∈ added, k = userID ∧ lookup db k = none) ∧
    (∃ added : List Int,
      (addUpgrade c db userID upgradeName).1.map User.userID = db.map User.userID ++ added ∧
      added.length ≤ 1 ∧ ∀ k ∈ added, k = userID ∧ lookup db k = none) ∧
    (∃ added : List Int,
      (addFriend c1 c2 db userID friendID).1.map User.userID = db.map User.userID ++ added ∧
      added.length ≤ 2 ∧
      ∀ k ∈ added, (k = userID ∨ k = friendID) ∧ lookup db k = none) := by
  refine ⟨?_, ?_, ?_, ?_, ?_⟩
  · rintro ⟨ops, rfl⟩
    exact runAll_preserves UniqueKeys uniqueKeys_upsertOne ops [] (by simp [UniqueKeys])
  · exact Op.run_preserves UniqueKeys uniqueKeys_upsertOne op db
  · cases c with
    | answers => exact keys_upsertOne_added db userID _
    | raises m => exact ⟨[], by simp [setClicks_raises], by simp, by simp⟩
  · cases c with
    | answers => exact keys_upsertOne_added db userID _
    | raises m => exact ⟨[], by simp [addUpgrade_raises], by simp, by simp⟩
  · cases c1 with
    | raises m => exact ⟨[], by simp [addFriend_raises], by simp, by simp⟩
    | answers =>
      obtain ⟨a1, h1, l1, p1⟩ := keys_upsertOne_added db userID (.addToSetFriends friendID)
      cases c2 with
      | raises m =>
        refine ⟨a1, h1, by omega, ?_⟩
        intro k hk
        exact ⟨Or.inl (p1 k hk).1, (p1 k hk).2⟩
      | answers =>
        obtain ⟨a2, h2, l2, p2⟩ := keys_upsertOne_added
          (upsertOne db userID (.addToSetFriends friendID)).1 friendID (.addToSetFriends userID)
        refine ⟨a1 ++ a2, ?_, by simp only [List.length_append]; omega, ?_⟩
        · rw [addFriend_answers_answers]
          simp only [h2, h1, List.append_assoc]
        · intro k hk
          rcases List.mem_append.mp hk with hk | hk
          · exact ⟨Or.inl (p1 k hk).1, (p1 k hk).2⟩
          · refine ⟨Or.inr (p2 k hk).1, ?_⟩
            have hn := (lookup_eq_none_iff _ k).mp (p2 k hk).2
            rw [lookup_eq_none_iff]
            intro hmem
            apply hn
            rw [h1]
            exact List.mem_append_left _ hmem

/-- Witness of C8: a history writing user 5 three times and user 9 once ends
with unique keys, and AddFriend on a collection with unique keys keeps them. -/
theorem uniqueKeys_invariant_witness :
    UniqueKeys (runAll [.setClicks .answers 5 10, .addUpgrade .answers 5 "laser",
      .addFriend .answers .answers 5 9] []) ∧
    UniqueKeys (Op.run (.addFriend .answers .answers 5 9) [newUser 5, newUser 7]).1 :=
  ⟨(uniqueKeys_invariant (.getClicks .answers .missing)
      (runAll [.setClicks .answers 5 10, .addUpgrade .answers 5 "laser",
        .addFriend .answers .answers 5 9] [])
      .answers .answers .answers 5 9 10 "laser").1 ⟨_, rfl⟩,
    (uniqueKeys_invariant (.addFriend .answers .answers 5 9) [newUser 5, newUser 7]
      .answers .answers .answers 5 9 10 "laser").2.1 (by simp [UniqueKeys, newUser])⟩

/-- C9. AddFriend is not atomic. There are a collection and ids
userID ≠ friendID (here users 1 and 2, user 2 already stored) such that, the
first update answered and the second rejected, the response is 500 with the
error message while the collection is changed and one-sided: friendID is in
the friends of userID and userID is not in the friends of friendID. For every
input the collection the handler leaves in that case is exactly the one the
first update produced: nothing afterwards touches it. -/
theorem addFriend_not_atomic :
    (∃ (db : Store) (userID friendID : Int) (message : String), userID ≠ friendID ∧
      (addFriend .answers (.raises message) db userID friendID).2 =
        { status := 500, body := .message message } ∧
      (addFriend .answers (.raises message) db userID friendID).1 ≠ db ∧
      (∃ d : User, lookup (addFriend .answers (.raises message) db userID friendID).1 userID
        = some d ∧ friendID ∈ d.friends) ∧
      (∃ e : User, lookup (addFriend .answers (.raises message) db userID friendID).1 friendID
        = some e ∧ userID ∉ e.friends)) ∧
    (∀ (db : Store) (userID friendID : Int) (message : String),
      ∃ (db1 : Store) (doc : User),
        User.findOneAndUpdate .answers db userID (.addToSetFriends friendID) = .ok (db1, doc) ∧
        addFriend .answers (.raises message) db userID friendID =
          (db1, { status := 500, body := .message message })) := by
  constructor
  · refine ⟨[newUser 2], 1, 2, "store unavailable", by decide, rfl, by decide,
      ⟨{ userID := 1, clicks := 0, upgrades := [], friends := [2] }, by decide, by decide⟩,
      ⟨newUser 2, by decide, by decide⟩⟩
  · intro db userID friendID message
    exact ⟨_, _, rfl, rfl⟩

/-- C10. Write frame, for every collection and every outcome of the store
calls. SetClicks(u, n) leaves every document of another user as it was, keeps
the upgrades and friends of an existing u, and a document it creates is
`{u, n, [], []}`. AddUpgrade(u, x) leaves every document of another user as
it was, keeps the clicks and friends of an existing u and its upgrades as the
start of the new list, and a document it creates is `{u, 0, [x], []}`.
AddFriend(u, f) leaves every document other than those of u and f as it was,
keeps the clicks and upgrades of existing u and f, and the documents it
creates are `{u, 0, [], [f]}` and `{f, 0, [], [u]}`. -/
theorem write_frame (c c1 c2 : StoreCall) (db : Store) (u f n : Int) (x : String) :
    ((setClicks c db u n).1.filter (fun d => d.userID != u) =
        db.filter (fun d => d.userID != u) ∧
      (∀ d, lookup db u = some d →
        ∃ d', lookup (setClicks c db u n).1 u = some d' ∧
          d'.upgrades = d.upgrades ∧ d'.friends = d.friends) ∧
      (lookup db u = none → ∀ d', lookup (setClicks c db u n).1 u = some d' →
        d' = { userID := u, clicks := n, upgrades := [], friends := [] })) ∧
    ((addUpgrade c db u x).1.filter (fun d => d.userID != u) =
        db.filter (fun d => d.userID != u) ∧
      (∀ d, lookup db u = some d →
        ∃ d', lookup (addUpgrade c db u x).1 u = some d' ∧
          d'.clicks = d.clicks ∧ d'.friends = d.friends ∧
          ∃ t, d'.upgrades = d.upgrades ++ t) ∧
      (lookup db u = none → ∀ d', lookup (addUpgrade c db u x).1 u = some d' →
        d' = { userID := u, clicks := 0, upgrades := [x], friends := [] })) ∧
    ((addFriend c1 c2 db u f).1.filter (fun d => d.userID != u && d.userID != f) =
        db.filter (fun d => d.userID != u && d.userID != f) ∧
      (∀ k d, (k = u ∨ k = f) → lookup db k = some d →
        ∃ d', lookup (addFriend c1 c2 db u f).1 k = some d' ∧
          d'.clicks = d.clicks ∧ d'.upgrades = d.upgrades) ∧
      (lookup db u = none → ∀ d', lookup (addFriend c1 c2 db u f).1 u = some d' →
        d' = { userID := u, clicks := 0, upgrades := [], friends := [f] }) ∧
      (lookup db f = none → ∀ d', lookup (addFriend c1 c2 db u f).1 f = some d' →
        d' = { userID := f, clicks := 0, upgrades := [], friends := [u] })) := by
  refine ⟨?_, ?_, ?_⟩
  · cases c with
    | raises m =>
      refine ⟨rfl, fun d hd => ⟨d, hd, rfl, rfl⟩, ?_⟩
      intro hn d' hd'
      rw [setClicks_raises] at hd'
      simp [hn] at hd'
    | answers =>
      rw [setClicks_answers]
      refine ⟨filter_upsertOne db u _ (fun k => k != u) (by simp), ?_, ?_⟩
      · intro d hd
        exact ⟨(Update.setClicks n).apply d,
          by simp only [lookup_upsertOne, if_true, hd]; rfl, rfl, rfl⟩
      · intro hn d' hd'
        simp only [lookup_upsertOne, if_true, hn, Option.some.injEq] at hd'
        subst hd'
        rfl
  · cases c with
    | raises m =>
      refine ⟨rfl, fun d hd => ⟨d, hd, rfl, rfl, [], by simp⟩, ?_⟩
      intro hn d' hd'
      rw [addUpgrade_raises] at hd'
      simp [hn] at hd'
    | answers =>
      rw [addUpgrade_answers]
      refine ⟨filter_upsertOne db u _ (fun k => k != u) (by simp), ?_, ?_⟩
      · intro d hd
        refine ⟨(Update.addToSetUpgrades x).apply d,
          by simp only [lookup_upsertOne, if_true, hd]; rfl, rfl, rfl, ?_⟩
        simp only [Update.apply, addToSet]
        by_cases hx : x ∈ d.upgrades
        · exact ⟨[], by simp [hx]⟩
        · exact ⟨[x], by simp [hx]⟩
      · intro hn d' hd'
        simp only [lookup_upsertOne, if_true, hn, Option.some.injEq] at hd'
        subst hd'
        rfl
  · cases c1 with
    | raises m =>
      rw [addFriend_raises]
      refine ⟨rfl, fun k d _ hd => ⟨d, hd, rfl, rfl⟩, ?_, ?_⟩
      · intro hn d' hd'
        simp [hn] at hd'
      · intro hn d' hd'
        simp [hn] at hd'
    | answers =>
      cases c2 with
      | raises m =>
        rw [addFriend_answers_raises]
        refine ⟨filter_upsertOne db u _ (fun k => k != u && k != f) (by simp), ?_, ?_, ?_⟩
        · intro k d hk hd
          by_cases hku : k = u
          · subst hku
            exact ⟨(Update.addToSetFriends f).apply d,
              by simp only [lookup_upsertOne, if_true, hd]; rfl, rfl, rfl⟩
          · exact ⟨d, by simp only [lookup_upsertOne, hku, if_false, hd], rfl, rfl⟩
        · intro hn d' hd'
          simp only [lookup_upsertOne, if_true, hn, Option.some.injEq] at hd'
          subst hd'
          rfl
        · intro hn d' hd'
          by_cases hfu : f = u
          · subst hfu
            simp only [lookup_upsertOne, if_true, hn, Option.some.injEq] at hd'
            subst hd'
            rfl
          · simp [lookup_upsertOne, hfu, hn] at hd'
      | answers =>
        rw [addFriend_answers_answers]
        refine ⟨?_, ?_, ?_, ?_⟩
        · rw [filter_upsertOne _ f _ (fun k => k != u && k != f) (by simp)]
          exact filter_upsertOne db u _ (fun k => k != u && k != f) (by simp)
        · intro k d hk hd
          by_cases hkf : k = f
          · subst hkf
            by_cases hku : k = u
            · subst hku
              exact ⟨(Update.addToSetFriends k).apply ((Update.addToSetFriends k).apply d),
                by simp only [lookup_upsertOne, if_true, hd]; rfl, rfl, rfl⟩
            · exact ⟨(Update.addToSetFriends u).apply d,
                by simp only [lookup_upsertOne, if_true, hku, if_false, hd]; rfl, rfl, rfl⟩
          · have hku : k = u := hk.resolve_right hkf
            subst hku
            exact ⟨(Update.addToSetFriends f).apply d,
              by simp only [lookup_upsertOne, if_true, hkf, if_false, hd]; rfl, rfl, rfl⟩
        · intro hn d' hd'
          by_cases hfu : u = f
          · subst hfu
            simp only [lookup_upsertOne, if_true, hn, Option.some.injEq] at hd'
            subst hd'
            simp [Update.apply, addToSet, newUser]
          · simp only [lookup_upsertOne, if_true, hfu, if_false, hn,
              Option.some.injEq] at hd'
            subst hd'
            rfl
        · intro hn d' hd'
          by_cases hfu : f = u
          · subst hfu
            simp only [lookup_upsertOne, if_true, hn, Option.some.injEq] at hd'
            subst hd'
            simp [Update.apply, addToSet, newUser]
          · simp only [lookup_upsertOne, if_true, hfu, if_false, hn,
              Option.some.injEq] at hd'
            subst hd'
            rfl

/-- Witness of C10: user 5 with clicks 3, upgrade `"a"` and friend 7, next to
user 8; each write on user 5 keeps the other fields and user 8, and AddFriend
creates user 9 as `{9, 0, [], [5]}`. -/
theorem write_frame_witness :
    (∃ d', lookup (setClicks .answers
        [{ userID := 5, clicks := 3, upgrades := ["a"], friends := [7] }, newUser 8] 5 10).1 5
        = some d' ∧ d'.upgrades = ["a"] ∧ d'.friends = [7]) ∧
    (∃ d', lookup (addUpgrade .answers
        [{ userID := 5, clicks := 3, upgrades := ["a"], friends := [7] }, newUser 8] 5 "b").1 5
        = some d' ∧ d'.clicks = 3 ∧ d'.friends = [7] ∧ ∃ t, d'.upgrades = ["a"] ++ t) ∧
    (∀ d', lookup (addFriend .answers .answers
        [{ userID := 5, clicks := 3, upgrades := ["a"], friends := [7] }, newUser 8] 5 9).1 9
        = some d' → d' = { userID := 9, clicks := 0, upgrades := [], friends := [5] }) :=
  ⟨(write_frame .answers .answers .answers
      [{ userID := 5, clicks := 3, upgrades := ["a"], friends := [7] }, newUser 8]
      5 9 10 "b").1.2.1
      { userID := 5, clicks := 3, upgrades := ["a"], friends := [7] } (by decide),
    (write_frame .answers .answers .answers
      [{ userID := 5, clicks := 3, upgrades := ["a"], friends := [7] }, newUser 8]
      5 9 10 "b").2.1.2.1
      { userID := 5, clicks := 3, upgrades := ["a"], friends := [7] } (by decide),
    (write_frame .answers .answers .answers
      [{ userID := 5, clicks := 3, upgrades := ["a"], friends := [7] }, newUser 8]
      5 9 10 "b").2.2.2.2.2 (by decide)⟩

end Clicker
